import Mathlib

/-!
Verification of the Ints interpreter (a C++ tree-walking interpreter for an
array-oriented toy language) against its natural-language specification.

Shallow embedding conventions:
- C++ `int` elements are modelled as `Int`; the 32-bit wrap-around of the
  arithmetic operators is made explicit through `wrap32`, and the
  `static_cast<char>` conversion used when ints are written as bytes is
  `toChar8`.
- `std::vector<int>` (the growable storage) and `DynamicArray` (the fixed
  storage) both become `List Int`; the `Value` variant keeps the two apart
  with the `Storage.vec` / `Storage.dyn` constructors, mirroring
  `std::variant<std::vector<int>, DynamicArray>` of `runtime/value.h`.
- The scope chain (`Scope` with a weak parent pointer, from
  `runtime/interpreter.cpp`) becomes a spine of frames `Env = List Frame`,
  innermost first; `Scope::has/hasRecursive/get/set/define` become the
  corresponding `Frame`/`Env` functions.
- The interpreter functions of `runtime/interpreter.cpp` are translated
  one-for-one, threading an explicit state `St` (environment, stdout bytes,
  the list of already-interpreted filenames, and the ambient world: parsed
  modules per filename, raw file bytes, and the keyboard stream).  Recursion
  is made total with a fuel parameter; `Step.nofuel` marks fuel exhaustion
  and is distinct from runtime errors (`Step.err`) and from process
  termination through the `exit` builtin or the top-level catch
  (`Step.exited`).
- The module loader: `interpretFile` in C++ performs `readCode` +
  `tokenize` + `RootNode::parse` and then walks the top-level items.  Here
  `readCode` is the lookup of the raw source text in `St.rawFs`, the
  `tokenize` stage is the embedded lexer itself (so a lex error aborts the
  load exactly as the thrown C++ exception does), and only
  `RootNode::parse` is abstracted: `St.fs` maps a filename to the parsed
  top-level items of that file, which `interpretFile` walks exactly as the
  C++ loop does.
- The lexer `tokenize` of `lexer/tokenize.cpp` is embedded separately over
  `List Char`; its scan consumes at least one character per step, so a fuel
  of `length + 1` always suffices and the fuel-exhaustion branch is
  unreachable.
-/

namespace Ints

/-- Two to the 31st, the bound of a C++ 32-bit signed `int`. -/
def int31 : Nat := 2 ^ 31

/-- Wrap an unbounded integer into the 32-bit signed range, making the
overflow behaviour of the C++ `int` arithmetic explicit. -/
def wrap32 (x : Int) : Int := (x + int31) % (2 ^ 32) - int31

/-- The `static_cast<char>` conversion applied when an int is written out as
a byte (8-bit signed wrap-around). -/
def toChar8 (x : Int) : Int := (x + 128) % 256 - 128

/-! ## Lexer (src/lexer/tokenize.cpp) -/

/-- Token categories, from `TokenType` in `tokenize.h`. -/
inductive TokenType where
  | identifier
  | intLit
  | stringLit
  | symbol
deriving DecidableEq

/-- A token: category plus raw text, from `Token` in `tokenize.h`. -/
structure Token where
  type : TokenType
  value : String
deriving DecidableEq

end Ints

deriving instance DecidableEq for Except

namespace Ints

/-- The C-locale `isalpha` on the ASCII range. -/
def cIsAlpha (c : Char) : Bool :=
  (65 ≤ c.toNat && c.toNat ≤ 90) || (97 ≤ c.toNat && c.toNat ≤ 122)

/-- The C-locale `isdigit`. -/
def cIsDigit (c : Char) : Bool := 48 ≤ c.toNat && c.toNat ≤ 57

/-- The C-locale `isalnum`. -/
def cIsAlnum (c : Char) : Bool := cIsAlpha c || cIsDigit c

/-- The C-locale `isspace`. -/
def cIsSpace (c : Char) : Bool :=
  c == ' ' || c == '\t' || c == '\n' || c == '\x0b' || c == '\x0c' || c == '\r'

/-- The symbol set of the lexer, the C++ string literal
`"[]-><\x7b\x7d:+!=*/%;().,"`. -/
def lexSymbols : List Char :=
  ['[', ']', '-', '>', '<', '{', '}', ':', '+', '!', '=', '*', '/', '%',
   ';', '(', ')', '.', ',']

/-- Decode the escape sequences of a raw string-literal body, mirroring
`interpretEscapes`: a backslash followed by one of `n t r \ " ' 0` becomes
the escaped character, any other escaped character is a lex error, and a
trailing lone backslash is copied as-is. -/
def interpretEscapes : List Char → Except String (List Char)
  | [] => Except.ok []
  | '\\' :: next :: rest =>
    let decoded : Except String Char :=
      if next = 'n' then Except.ok '\n'
      else if next = 't' then Except.ok '\t'
      else if next = 'r' then Except.ok '\r'
      else if next = '\\' then Except.ok '\\'
      else if next = '"' then Except.ok '"'
      else if next = '\'' then Except.ok '\''
      else if next = '0' then Except.ok (Char.ofNat 0)
      else Except.error ("Unexpected character after backslash")
    match decoded with
    | Except.error m => Except.error m
    | Except.ok c =>
      match interpretEscapes rest with
      | Except.error m => Except.error m
      | Except.ok cs => Except.ok (c :: cs)
  | c :: rest =>
    match interpretEscapes rest with
    | Except.error m => Except.error m
    | Except.ok cs => Except.ok (c :: cs)

/-- Scan a string-literal body: collect characters while the current one is
not an unescaped quote (the loop condition of the C++ lexer compares the
current character with the previous raw character).  Returns the raw body
and the input remaining after the closing quote, or `none` when the input
ends before an unescaped quote (the `UnexpectedEOFError` case). -/
def scanStringLit : Char → List Char → Option (List Char × List Char)
  | _, [] => none
  | prev, c :: rest =>
    if c = '"' && prev ≠ '\\' then some ([], rest)
    else
      match scanStringLit c rest with
      | none => none
      | some (body, remaining) => some (c :: body, remaining)

/-- One pass of the `tokenize` loop.  The fuel argument only serves
termination; every step consumes at least one character, so
`code.length + 1` units always suffice and the fuel branch is unreachable
from `tokenize` below. -/
def tokenizeAux : Nat → List Char → Except String (List Token)
  | 0, _ => Except.error ("tokenize fuel exhausted")
  | _ + 1, [] => Except.ok []
  | fuel + 1, c :: rest =>
    if cIsAlpha c then
      let identifier := (c :: rest).takeWhile cIsAlnum
      match tokenizeAux fuel ((c :: rest).dropWhile cIsAlnum) with
      | Except.error m => Except.error m
      | Except.ok ts => Except.ok (⟨TokenType.identifier, ⟨identifier⟩⟩ :: ts)
    else if cIsDigit c ||
        (c = '-' && (match rest with | d :: _ => cIsDigit d | [] => false)) then
      let intLit := c :: rest.takeWhile cIsDigit
      match tokenizeAux fuel (rest.dropWhile cIsDigit) with
      | Except.error m => Except.error m
      | Except.ok ts => Except.ok (⟨TokenType.intLit, ⟨intLit⟩⟩ :: ts)
    else if c = '"' then
      match scanStringLit c rest with
      | none => Except.error ("String Literal: unexpected EOF")
      | some (body, remaining) =>
        match interpretEscapes body with
        | Except.error m => Except.error m
        | Except.ok decoded =>
          match tokenizeAux fuel remaining with
          | Except.error m => Except.error m
          | Except.ok ts => Except.ok (⟨TokenType.stringLit, ⟨decoded⟩⟩ :: ts)
    else if c = '\n' then tokenizeAux fuel rest
    else if lexSymbols.contains c then
      match tokenizeAux fuel rest with
      | Except.error m => Except.error m
      | Except.ok ts => Except.ok (⟨TokenType.symbol, ⟨[c]⟩⟩ :: ts)
    else if !cIsSpace c then Except.error ("Unexpected character")
    else tokenizeAux fuel rest

/-- The lexer: byte stream to token stream, from `tokenize` in
`src/lexer/tokenize.cpp`. -/
def tokenize (code : List Char) : Except String (List Token) :=
  tokenizeAux (code.length + 1) code

/-! ## AST (parser/parse.h, parser/parse.cpp)

The node classes become inductives; `shared_ptr` indirection disappears.
`ArithmeticNode.left/right` are non-null in every parsed tree that the
evaluator receives, so they are total fields here. -/

/-- The shape constraint `[n]`, `[n+]`, `[+]`, `[]`, from `ArrayDescriptor`. -/
structure ArrayDescriptor where
  size : Option Nat
  canGrow : Bool
deriving DecidableEq

/-- The four arithmetic operators of `ArithmeticNode.Type`. -/
inductive ArithOp where
  | addition
  | subtraction
  | multiplication
  | division
deriving DecidableEq

/-- The six comparison operators of `IfCompareNode.Type`. -/
inductive CmpOp where
  | eq | ne | lt | le | gt | ge
deriving DecidableEq

mutual

/-- An `ExpressionNode`: a primary followed by the ordered suffix operations
(ranges and method calls, `ArrayPostFixNode`). -/
inductive Expr where
  | mk (primary : Primary) (suffixOps : List SuffixOp)

/-- The primary of an expression: an `ArithmeticNode` or an `ArrayNode`. -/
inductive Primary where
  | arith (a : Arith)
  | array (a : ArrayN)

/-- An `ArithmeticNode` binary tree over the four operators. -/
inductive Arith where
  | mk (left : Expr) (right : Expr) (type : ArithOp)

/-- An `ArrayNode`: an int-vector literal (string literals are decoded into
this form by the parser through `stringToInts`), an identifier reference, or
a function call. -/
inductive ArrayN where
  | lit (xs : List Int)
  | ident (name : String)
  | call (c : FuncCall)

/-- A `FunctionCallNode`: callee name and argument expressions. -/
inductive FuncCall where
  | mk (identifier : String) (parameters : List Expr)

/-- One entry of `ArrayPostFixNode`: an `ArrayRangeNode` (with optional
bounds, each either a parsed literal or an expression) or a `MethodNode`. -/
inductive SuffixOp where
  | range (start : Option RangeBound) (stop : Option RangeBound)
  | method (identifier : String) (parameters : List Expr)

/-- One bound of an `ArrayRangeNode`: `std::variant<size_t, ExpressionNode>`. -/
inductive RangeBound where
  | nat (n : Nat)
  | expr (e : Expr)

end

/-- Callee name of a function call. -/
def FuncCall.identifier : FuncCall → String
  | .mk i _ => i

/-- Argument expressions of a function call. -/
def FuncCall.parameters : FuncCall → List Expr
  | .mk _ p => p

/-- A `VariableDeclarationNode`: name, descriptor, optional initializer. -/
inductive VarDecl where
  | mk (identifier : String) (descriptor : ArrayDescriptor) (value : Option Expr)

/-- Name of a declaration. -/
def VarDecl.identifier : VarDecl → String
  | .mk i _ _ => i

/-- Descriptor of a declaration. -/
def VarDecl.descriptor : VarDecl → ArrayDescriptor
  | .mk _ d _ => d

/-- Initializer of a declaration. -/
def VarDecl.value : VarDecl → Option Expr
  | .mk _ _ v => v

/-- A `VariableBindingNode`: declaration or assignment. -/
inductive VarBinding where
  | decl (d : VarDecl)
  | assign (left : String) (right : Expr)

/-- An `IfCompareNode` or `IfDeclarationNode` condition, as used by both
`IfNode` and `WhileNode`. -/
inductive Cond where
  | compare (type : CmpOp) (left : Expr) (right : Expr)
  | decl (d : VarDecl)

mutual

/-- A `StatementNode`. -/
inductive Stmt where
  | binding (b : VarBinding)
  | forLoop (element : String) (iterable : Expr) (body : List Stmt)
  | whileLoop (condition : Cond) (body : List Stmt)
  | ifStmt (n : IfN)
  | call (c : FuncCall)
  | ret (e : Expr)

/-- An `IfNode`: condition, body, optional else-if chain, optional else. -/
inductive IfN where
  | mk (condition : Cond) (body : List Stmt) (elseIfBranches : Option IfN)
      (elseBody : Option (List Stmt))

end

/-- A `FunctionDefinitionNode`: name, parameters (name and descriptor each,
from `FunctionParameterNode`), output descriptor, body. -/
structure FuncDef where
  identifier : String
  params : List (String × ArrayDescriptor)
  output : ArrayDescriptor
  body : List Stmt

/-- The `UseNode.Type` discriminator. -/
inductive UseType where
  | path
  | standardHeader
deriving DecidableEq

/-- A `UseNode`: the target array expression and its kind. -/
structure UseN where
  value : ArrayN
  type : UseType

/-- One top-level item of a `RootNode`. -/
inductive TopLevel where
  | funcDef (f : FuncDef)
  | useDirective (u : UseN)
  | binding (b : VarBinding)
  | call (c : FuncCall)

/-! ## Value model (runtime/value.h, the two-variant Value of the current
interpreter) -/

/-- The storage variant of a runtime `Value`:
`std::variant<std::vector<int>, DynamicArray>`. -/
inductive Storage where
  | vec (xs : List Int)
  | dyn (xs : List Int)
deriving DecidableEq

/-- A runtime `Value`: storage plus the recorded `minimum`. -/
structure Value where
  storage : Storage
  minimum : Nat
deriving DecidableEq

/-- The element list held by either storage variant. -/
def Storage.list : Storage → List Int
  | .vec xs => xs
  | .dyn xs => xs

/-- The `DynamicArray::fromValue` flattening: both variants expose their
elements (the current `Value` has no function variant). -/
def DynamicArray.fromValue (v : Value) : List Int :=
  v.storage.list

/-- The `Value::getSize` accessor. -/
def Value.getSize (v : Value) : Nat :=
  (DynamicArray.fromValue v).length

/-- The `Value::sameSize` helper. -/
def Value.sameSize (v w : Value) : Bool :=
  (DynamicArray.fromValue v).length == (DynamicArray.fromValue w).length

/-- The zero-length `Value(DynamicArray(0), 0)` returned by several
builtins and by calls without an early return. -/
def emptyValue : Value := ⟨Storage.dyn [], 0⟩

/-- Pointwise `DynamicArray` arithmetic, after the equal-size check has
passed; the C++ `int` operation wraps. -/
def DynamicArray.pointwise (f : Int → Int → Int) (a b : List Int) : List Int :=
  (a.zip b).map fun p => wrap32 (f p.1 p.2)

/-- The C++ `int` division (truncation toward zero; division by zero is
undefined behaviour in the source and maps to the Lean convention 0). -/
def intDiv (a b : Int) : Int := Int.tdiv a b

/-- One of the four `Value` arithmetic operators: check `sameSize`, throw
the corresponding message otherwise, and produce a `Fixed` result whose
`minimum` is the common length. -/
def Value.arith (f : Int → Int → Int) (msg : String) (v w : Value) :
    Except String Value :=
  if !(Value.sameSize v w) then Except.error msg
  else
    let left := DynamicArray.fromValue v
    let right := DynamicArray.fromValue w
    Except.ok ⟨Storage.dyn (DynamicArray.pointwise f left right), left.length⟩

/-- `DynamicArray::operator==`: size mismatch gives false, otherwise every
pair must be equal. -/
def DynamicArray.beq (a b : List Int) : Bool :=
  if a.length ≠ b.length then false
  else (a.zip b).all fun p => p.1 == p.2

/-- `DynamicArray::operator!=`: size mismatch gives false, otherwise every
pair must differ (the loop returns false on the first equal pair). -/
def DynamicArray.bne (a b : List Int) : Bool :=
  if a.length ≠ b.length then false
  else (a.zip b).all fun p => p.1 != p.2

/-- `DynamicArray::operator<` and friends: size mismatch gives false,
otherwise every pair must satisfy the strict relation. -/
def DynamicArray.ballRel (r : Int → Int → Bool) (a b : List Int) : Bool :=
  if a.length ≠ b.length then false
  else (a.zip b).all fun p => r p.1 p.2

/-- `Value::operator==`: `sameSize` guard then the `DynamicArray` compare. -/
def Value.beq (v w : Value) : Bool :=
  if !(Value.sameSize v w) then false
  else DynamicArray.beq (DynamicArray.fromValue v) (DynamicArray.fromValue w)

/-- `Value::operator!=`: `sameSize` guard then `DynamicArray::operator!=`. -/
def Value.bne (v w : Value) : Bool :=
  if !(Value.sameSize v w) then false
  else DynamicArray.bne (DynamicArray.fromValue v) (DynamicArray.fromValue w)

/-- `Value::operator<` and friends. -/
def Value.brel (r : Int → Int → Bool) (v w : Value) : Bool :=
  if !(Value.sameSize v w) then false
  else DynamicArray.ballRel r (DynamicArray.fromValue v)
    (DynamicArray.fromValue w)

/-- The `Value::operator=` assignment contract, from `runtime/value.cpp`:

- growable destination, growable source: error when the destination
  `minimum` exceeds the source length, else the contents are replaced;
- growable destination, fixed source: error when the destination `minimum`
  exceeds the source `minimum`; then every existing slot is overwritten by
  the corresponding source element (`at` throwing out-of-range is caught and
  writes 0), and the source tail beyond the old length is pushed back;
- fixed destination, growable source: error unless the destination
  `minimum` equals the source length, else the first `minimum` slots are
  overwritten;
- fixed destination, fixed source: error unless the two `minimum` fields
  are equal, else the first `minimum` slots are overwritten.

The destination `minimum` is never modified. -/
def Value.assign (dest src : Value) : Except String Value :=
  match dest.storage, src.storage with
  | Storage.vec _d, Storage.vec s =>
    if dest.minimum > s.length then
      Except.error ("Cannot set value. Destination minimum is larger than the sources length")
    else Except.ok ⟨Storage.vec s, dest.minimum⟩
  | Storage.vec d, Storage.dyn s =>
    if dest.minimum > src.minimum then
      Except.error ("Cannot set value. Destination minimum is larger than the sources length")
    else
      let merged := ((List.range d.length).map fun i =>
        if i < s.length then s.getD i 0 else 0) ++ s.drop d.length
      Except.ok ⟨Storage.vec merged, dest.minimum⟩
  | Storage.dyn d, Storage.vec s =>
    if dest.minimum ≠ s.length then
      Except.error ("Cannot set value. Destination length is not equal to the sources length")
    else
      let merged := d.mapIdx fun i x => if i < dest.minimum then s.getD i 0 else x
      Except.ok ⟨Storage.dyn merged, dest.minimum⟩
  | Storage.dyn d, Storage.dyn s =>
    if dest.minimum ≠ src.minimum then
      Except.error ("Cannot set value. Destination length is not equal to the sources length")
    else
      let merged := d.mapIdx fun i x => if i < dest.minimum then s.getD i 0 else x
      Except.ok ⟨Storage.dyn merged, dest.minimum⟩

/-- `Value::fromDescriptor`, from `runtime/value.cpp`:

- a growable descriptor builds an empty vector (`reserve` does not change
  the size, so the recorded `minimum` is `dynamicArray.size() = 0`) and then
  assigns the initializer into it when present;
- a fixed descriptor with a size builds a zero `DynamicArray` of that size
  with the size as `minimum` and assigns the initializer when present;
- a fixed descriptor without a size returns a copy of the initializer, or
  the static-array error when there is none. -/
def Value.fromDescriptor (descriptor : ArrayDescriptor)
    (value : Option Value) : Except String Value :=
  if descriptor.canGrow then
    let result : Value := ⟨Storage.vec [], 0⟩
    match value with
    | some v => Value.assign result v
    | none => Except.ok result
  else
    match descriptor.size with
    | some size =>
      let result : Value := ⟨Storage.dyn (List.replicate size 0), size⟩
      match value with
      | some v => Value.assign result v
      | none => Except.ok result
    | none =>
      match value with
      | some v => Except.ok v
      | none => Except.error ("Static array cannot be defined without a value")

/-- The byte string printed for a value (`valueToString`): each element cast
to `char`. -/
def valueToString (v : Value) : List Int :=
  (DynamicArray.fromValue v).map toChar8

/-- `ArrayNode::stringToInts`: the characters of a string as ints. -/
def stringToInts (s : String) : List Int :=
  s.toList.map fun c => Int.ofNat c.toNat

/-! ## Scope chain (Scope in runtime/interpreter.cpp)

A binding is `std::variant<std::shared_ptr<Value>,
std::shared_ptr<FunctionDefinitionNode>>`.  The chain of scopes reachable
through the weak parent pointers is the spine `Env`, innermost frame
first. -/

/-- A name binds either an array value or a function definition. -/
inductive Binding where
  | val (v : Value)
  | func (f : FuncDef)

/-- One scope frame: the `variables` map of a `Scope`. -/
abbrev Frame := List (String × Binding)

/-- The scope chain, innermost frame first; the last frame is the root. -/
abbrev Env := List Frame

/-- `Scope::has` on one frame. -/
def Frame.has (f : Frame) (name : String) : Bool :=
  f.any fun p => p.1 == name

/-- Lookup within one frame. -/
def Frame.getB (f : Frame) (name : String) : Option Binding :=
  (f.find? fun p => p.1 == name).map fun p => p.2

/-- `insert_or_assign` on a key known to be present: replace its binding. -/
def Frame.assignB (f : Frame) (name : String) (b : Binding) : Frame :=
  f.map fun p => if p.1 == name then (p.1, b) else p

/-- `Scope::define` uses `emplace`: insertion is a no-op when the name is
already present in the frame. -/
def Frame.emplace (f : Frame) (name : String) (b : Binding) : Frame :=
  if Frame.has f name then f else (name, b) :: f

/-- `Scope::has` on the innermost scope of the chain. -/
def Env.hasTop (env : Env) (name : String) : Bool :=
  match env with
  | [] => false
  | f :: _ => Frame.has f name

/-- `Scope::hasRecursive`: walk the enclosing chain. -/
def Env.hasRecursive (env : Env) (name : String) : Bool :=
  env.any fun f => Frame.has f name

/-- `Scope::get`: the nearest definition, or the undefined-variable error. -/
def Env.get : Env → String → Except String Binding
  | [], name => Except.error ("Undefined variable: " ++ name)
  | f :: rest, name =>
    match Frame.getB f name with
    | some b => Except.ok b
    | none => Env.get rest name

/-- `Scope::set`: replace the binding in the nearest frame that defines the
name, or the undefined-variable-for-assignment error. -/
def Env.set : Env → String → Binding → Except String Env
  | [], name, _ => Except.error ("Undefined variable for assignment: " ++ name)
  | f :: rest, name, b =>
    if Frame.has f name then Except.ok (Frame.assignB f name b :: rest)
    else
      match Env.set rest name b with
      | Except.error m => Except.error m
      | Except.ok rest2 => Except.ok (f :: rest2)

/-- `Scope::define` on the innermost scope (no-op on a present name). -/
def Env.define (env : Env) (name : String) (b : Binding) : Env :=
  match env with
  | [] => []
  | f :: rest => Frame.emplace f name b :: rest

/-! ## Interpreter state and outcome -/

/-- The interpreter state: the scope chain, the bytes written to stdout, the
`interpretedFiles` list of the module loader, and the ambient world (the
parse results per filename, the raw source text per filename that
`readCode` returns for the loader and the `read` builtin, and the keyboard
stream for `getchar`). -/
structure St where
  env : Env
  output : List Int
  files : List (List Int)
  fs : List (List Int × List TopLevel)
  rawFs : List (List Int × List Char)
  input : List Int

/-- Outcome of one interpreter step: normal result, a thrown runtime error,
process termination (the `exit` builtin or the top-level catch), or fuel
exhaustion (the embedding artifact standing for non-termination). -/
inductive Step (α : Type) where
  | ok (a : α) (s : St)
  | err (msg : String) (s : St)
  | exited (code : Int) (s : St)
  | nofuel

/-- Sequencing of steps: errors, exits and fuel exhaustion short-circuit. -/
def Step.bindS {α β : Type} (x : Step α) (f : α → St → Step β) : Step β :=
  match x with
  | Step.ok a s => f a s
  | Step.err m s => Step.err m s
  | Step.exited c s => Step.exited c s
  | Step.nofuel => Step.nofuel

/-- Lift a pure fallible computation (a C++ throw) into a step. -/
def ofExcept {α : Type} (x : Except String α) (s : St) : Step α :=
  match x with
  | Except.ok a => Step.ok a s
  | Except.error m => Step.err m s

/-- Push a fresh child scope (`std::make_shared<Scope>(parent)`). -/
def pushScope (s : St) : St := {s with env := [] :: s.env}

/-- Drop the innermost scope when its region exits. -/
def popScope (s : St) : St := {s with env := s.env.tail}

/-! ## Built-in methods over already-evaluated arguments -/

/-- `applyAppend`: concatenation, result minimum is the combined length. -/
def applyAppend (value : Value) (parameters : List Value) :
    Except String Value :=
  match parameters with
  | [param1] =>
    let left := DynamicArray.fromValue value
    let right := DynamicArray.fromValue param1
    Except.ok ⟨Storage.dyn (left ++ right), left.length + right.length⟩
  | _ => Except.error ("append expects 1 argument")

/-- The truncated `sqrt` applied elementwise (negative elements are
undefined behaviour in the source; 0 here). -/
def intSqrt (x : Int) : Int :=
  if x < 0 then 0 else Int.ofNat (Nat.sqrt x.toNat)

/-- `applySqrt`: elementwise integer square root. -/
def applySqrt (value : Value) (parameters : List Value) :
    Except String Value :=
  match parameters with
  | [] =>
    let fixedValue := DynamicArray.fromValue value
    Except.ok ⟨Storage.dyn (fixedValue.map intSqrt), fixedValue.length⟩
  | _ => Except.error ("sqrt expects 0 arguments")

/-- `applySize`: a one-element array holding the current length (cast to
the C++ `int`). -/
def applySize (value : Value) (parameters : List Value) :
    Except String Value :=
  match parameters with
  | [] => Except.ok ⟨Storage.dyn [wrap32 (Int.ofNat (Value.getSize value))], 1⟩
  | _ => Except.error ("size expects 0 arguments")

/-- Bind the callee parameters in the fresh call scope: for each parameter,
`Value::fromDescriptor(descriptor, argument)` then `Scope::define`.  Called
after the arity check, so the two lists have equal length. -/
def defineParams : List (String × ArrayDescriptor) → List Value → Env →
    Except String Env
  | [], _, env => Except.ok env
  | _, [], env => Except.ok env
  | (name, descriptor) :: ps, arg :: rest, env =>
    match Value.fromDescriptor descriptor (some arg) with
    | Except.error m => Except.error m
    | Except.ok v => defineParams ps rest (Env.define env name (Binding.val v))

/-- Dispatch one comparison operator to the `Value` comparison. -/
def Value.compareOp : CmpOp → Value → Value → Bool
  | CmpOp.eq => Value.beq
  | CmpOp.ne => Value.bne
  | CmpOp.lt => Value.brel fun a b => decide (a < b)
  | CmpOp.le => Value.brel fun a b => decide (a ≤ b)
  | CmpOp.gt => Value.brel fun a b => decide (a > b)
  | CmpOp.ge => Value.brel fun a b => decide (a ≥ b)

/-- `std::optional<size_t> == size_t`: engaged and equal. -/
def optEqNat (o : Option Nat) (m : Nat) : Bool :=
  match o with
  | some n => n == m
  | none => false

/-- `std::optional<size_t> < size_t`: `nullopt` precedes every value. -/
def optLtNat (o : Option Nat) (m : Nat) : Bool :=
  match o with
  | some n => decide (n < m)
  | none => true

/-! ## The evaluator (runtime/interpreter.cpp)

Every function takes a fuel first; fuel 0 yields `Step.nofuel` and each
call passes the decremented fuel, which makes the mutual recursion
structural. -/

mutual

/-- `interpretExpression`: evaluate the primary, then fold the suffix
operations over it (`applyPostfix`). -/
def interpretExpression : Nat → Expr → St → Step Value
  | 0, _, _ => Step.nofuel
  | fuel + 1, Expr.mk primary suffixOps, s =>
    Step.bindS
      (match primary with
       | Primary.arith a => interpretArithmetic fuel a s
       | Primary.array a => interpretArray fuel a s)
      fun v s1 => applySuffixOps fuel v suffixOps s1

/-- `interpretArray`: a literal yields a growable value whose minimum is
its length; an identifier yields a copy of the bound value (error when the
name is bound to a function); a call dispatches. -/
def interpretArray : Nat → ArrayN → St → Step Value
  | 0, _, _ => Step.nofuel
  | _ + 1, ArrayN.lit xs, s => Step.ok ⟨Storage.vec xs, xs.length⟩ s
  | _ + 1, ArrayN.ident name, s =>
    match Env.get s.env name with
    | Except.error m => Step.err m s
    | Except.ok (Binding.val v) => Step.ok v s
    | Except.ok (Binding.func _) =>
      Step.err ("Cannot use " ++ name ++
        " as an array, as it is defined as a function") s
  | fuel + 1, ArrayN.call c, s => interpretFunctionCall fuel c s

/-- `interpretArithmetic`: evaluate left then right, apply the operator. -/
def interpretArithmetic : Nat → Arith → St → Step Value
  | 0, _, _ => Step.nofuel
  | fuel + 1, Arith.mk left right type, s =>
    Step.bindS (interpretExpression fuel left s) fun lv s1 =>
    Step.bindS (interpretExpression fuel right s1) fun rv s2 =>
    ofExcept
      (match type with
       | ArithOp.addition =>
         Value.arith (fun a b => a + b)
           ("Cannot add arrays with different sizes") lv rv
       | ArithOp.subtraction =>
         Value.arith (fun a b => a - b)
           ("Cannot subtract arrays with different sizes") lv rv
       | ArithOp.multiplication =>
         Value.arith (fun a b => a * b)
           ("Cannot multiply arrays with different sizes") lv rv
       | ArithOp.division =>
         Value.arith intDiv
           ("Cannot divide arrays with different sizes") lv rv) s2

/-- `interpretParameters`: evaluate the argument expressions
left-to-right. -/
def interpretParameters : Nat → List Expr → St → Step (List Value)
  | 0, _, _ => Step.nofuel
  | _ + 1, [], s => Step.ok [] s
  | fuel + 1, p :: rest, s =>
    Step.bindS (interpretExpression fuel p s) fun v s1 =>
    Step.bindS (interpretParameters fuel rest s1) fun vs s2 =>
    Step.ok (v :: vs) s2

/-- `applyMethod`: evaluate the method arguments, then dispatch by name. -/
def applyMethod : Nat → Value → String → List Expr → St → Step Value
  | 0, _, _, _, _ => Step.nofuel
  | fuel + 1, v, name, ps, s =>
    Step.bindS (interpretParameters fuel ps s) fun parameters s1 =>
    if name == "append" then ofExcept (applyAppend v parameters) s1
    else if name == "sqrt" then ofExcept (applySqrt v parameters) s1
    else if name == "size" then ofExcept (applySize v parameters) s1
    else Step.err ("Unknown method " ++ name) s1

/-- `applyPostfix`: fold the suffix operations left-to-right over the
evolving value. -/
def applySuffixOps : Nat → Value → List SuffixOp → St → Step Value
  | 0, _, _, _ => Step.nofuel
  | _ + 1, v, [], s => Step.ok v s
  | fuel + 1, v, op :: rest, s =>
    Step.bindS
      (match op with
       | SuffixOp.range start stop => interpretArrayRange fuel start stop v s
       | SuffixOp.method name ps => applyMethod fuel v name ps s)
      fun v2 s1 => applySuffixOps fuel v2 rest s1

/-- `interpretArrayRangeBound`: a literal bound is returned as-is; an
expression bound must evaluate to a one-element non-negative array. -/
def interpretArrayRangeBound : Nat → RangeBound → St → Step Nat
  | 0, _, _ => Step.nofuel
  | _ + 1, RangeBound.nat n, s => Step.ok n s
  | fuel + 1, RangeBound.expr e, s =>
    Step.bindS (interpretExpression fuel e s) fun v s1 =>
    let result := DynamicArray.fromValue v
    if result.length ≠ 1 ∨ result.getD 0 0 < 0 then
      Step.err ("Array Bounds value must be an integer or evaluate to an array with 1 positive value") s1
    else Step.ok (result.getD 0 0).toNat s1

/-- `interpretArrayRange`: default the absent bounds (start to 0, end to
the current length), resolve both, require `start <= end <= length`, and
copy the window into a fresh fixed value. -/
def interpretArrayRange : Nat → Option RangeBound → Option RangeBound →
    Value → St → Step Value
  | 0, _, _, _, _ => Step.nofuel
  | fuel + 1, start, stop, v, s =>
    let size := Value.getSize v
    let startV := start.getD (RangeBound.nat 0)
    let stopV := stop.getD (RangeBound.nat size)
    Step.bindS (interpretArrayRangeBound fuel startV s) fun startN s1 =>
    Step.bindS (interpretArrayRangeBound fuel stopV s1) fun stopN s2 =>
    if stopN < startN then
      Step.err ("Array Range upper bound must be greater than or equal to the lower bound") s2
    else
      let newSize := stopN - startN
      if stopN > size then
        Step.err ("Array range bounds must be smaller than the length of the array") s2
      else
        let staticValue := DynamicArray.fromValue v
        Step.ok
          ⟨Storage.dyn ((List.range newSize).map fun i =>
            staticValue.getD (i + startN) 0), newSize⟩ s2

/-- `interpretFunctionCall`: a name bound anywhere in the chain must be a
function; its arguments are evaluated in the caller scope, a fresh scope is
pushed as a child of the caller scope, the parameters are bound through
their descriptors, and the body runs there.  Unbound names fall through to
the builtins, and otherwise the undefined-function error. -/
def interpretFunctionCall : Nat → FuncCall → St → Step Value
  | 0, _, _ => Step.nofuel
  | fuel + 1, c, s =>
    if Env.hasRecursive s.env c.identifier then
      match Env.get s.env c.identifier with
      | Except.error m => Step.err m s
      | Except.ok (Binding.val _) =>
        Step.err (c.identifier ++ " must be defined as a function.") s
      | Except.ok (Binding.func functionDefinition) =>
        Step.bindS (interpretParameters fuel c.parameters s) fun arguments s1 =>
        if functionDefinition.params.length ≠ arguments.length then
          Step.err ("Function " ++ functionDefinition.identifier ++
            " received the wrong number of arguments") s1
        else
          match defineParams functionDefinition.params arguments
              ([] :: s1.env) with
          | Except.error m => Step.err m s1
          | Except.ok envBody =>
            Step.bindS
              (interpretBody fuel functionDefinition.body
                {s1 with env := envBody})
              fun returnValue s2 =>
              match returnValue with
              | some v => Step.ok v (popScope s2)
              | none => Step.ok emptyValue (popScope s2)
    else if c.identifier == "print" then interpretPrint fuel c s
    else if c.identifier == "read" then interpretRead fuel c s
    else if c.identifier == "getchar" then interpretGetchar fuel c s
    else if c.identifier == "clear" then interpretClear fuel c s
    else if c.identifier == "range" then interpretRange fuel c s
    else if c.identifier == "exit" then interpretExit fuel c s
    else Step.err ("Undefined function " ++ c.identifier) s

/-- The `print` builtin: write the bytes of the argument to stdout. -/
def interpretPrint : Nat → FuncCall → St → Step Value
  | 0, _, _ => Step.nofuel
  | fuel + 1, c, s =>
    match c.parameters with
    | [p] =>
      Step.bindS (interpretExpression fuel p s) fun v s1 =>
      Step.ok emptyValue {s1 with output := s1.output ++ valueToString v}
    | _ => Step.err ("Function print expected 1 argument") s

/-- The `read` builtin: the argument bytes name a file, whose contents come
back as a byte array. -/
def interpretRead : Nat → FuncCall → St → Step Value
  | 0, _, _ => Step.nofuel
  | fuel + 1, c, s =>
    match c.parameters with
    | [p] =>
      Step.bindS (interpretExpression fuel p s) fun v s1 =>
      let filename := valueToString v
      match s1.rawFs.find? fun q => q.1 == filename with
      | none => Step.err ("Failed to open file") s1
      | some q =>
        interpretArray fuel
          (ArrayN.lit (q.2.map fun c => Int.ofNat c.toNat)) s1
    | _ => Step.err ("Function read expected 1 argument") s

/-- The `getchar` builtin: one key from the raw-mode terminal; an empty
stream blocks (no outcome), and Ctrl-C re-raises SIGINT. -/
def interpretGetchar : Nat → FuncCall → St → Step Value
  | 0, _, _ => Step.nofuel
  | fuel + 1, c, s =>
    match c.parameters with
    | [] =>
      match s.input with
      | [] => Step.nofuel
      | ch :: rest =>
        if ch == 3 then Step.exited 130 {s with input := rest}
        else interpretArray fuel (ArrayN.lit [ch]) {s with input := rest}
    | _ => Step.err ("Function getchar expected 0 arguments") s

/-- The `clear` builtin: host terminal-clear, no observable state here. -/
def interpretClear : Nat → FuncCall → St → Step Value
  | 0, _, _ => Step.nofuel
  | _ + 1, c, s =>
    match c.parameters with
    | [] => Step.ok emptyValue s
    | _ => Step.err ("Function clear expected 0 arguments") s

/-- The `range` builtin: the argument must be a one-element non-negative
array `[N]`; the result is `[0, 1, ..., N-1]`. -/
def interpretRange : Nat → FuncCall → St → Step Value
  | 0, _, _ => Step.nofuel
  | fuel + 1, c, s =>
    match c.parameters with
    | [p] =>
      Step.bindS (interpretExpression fuel p s) fun v s1 =>
      let param1 := DynamicArray.fromValue v
      if param1.length ≠ 1 then
        Step.err ("Function range expected 1 argument with size 1") s1
      else
        let length := param1.getD 0 0
        if length < 0 then
          Step.err ("Function range expected 1 non-negative argument") s1
        else
          Step.ok
            ⟨Storage.dyn ((List.range length.toNat).map fun i =>
              wrap32 (Int.ofNat i)), length.toNat⟩ s1
    | _ => Step.err ("Function range expected 1 argument") s

/-- The `exit` builtin: terminate the process with the first element of the
argument as status. -/
def interpretExit : Nat → FuncCall → St → Step Value
  | 0, _, _ => Step.nofuel
  | fuel + 1, c, s =>
    match c.parameters with
    | [p] =>
      Step.bindS (interpretExpression fuel p s) fun v s1 =>
      Step.exited ((DynamicArray.fromValue v).getD 0 0) s1
    | _ => Step.err ("Function exit expected 1 argument") s

/-- `interpretVariableDeclaration`: evaluate the optional initializer, then
define the name with the descriptor-shaped value. -/
def interpretVariableDeclaration : Nat → VarDecl → St → Step Unit
  | 0, _, _ => Step.nofuel
  | fuel + 1, d, s =>
    let finish : Option Value → St → Step Unit := fun v0 s0 =>
      match Value.fromDescriptor (VarDecl.descriptor d) v0 with
      | Except.error m => Step.err m s0
      | Except.ok nv =>
        let env2 := Env.define s0.env (VarDecl.identifier d) (Binding.val nv)
        Step.ok () {s0 with env := env2}
    match VarDecl.value d with
    | none => finish none s
    | some e =>
      Step.bindS (interpretExpression fuel e s) fun v s1 => finish (some v) s1

/-- `interpretVariableAssignment`: the name must exist recursively; the RHS
value then replaces the nearest binding through `Scope::set`. -/
def interpretVariableAssignment : Nat → String → Expr → St → Step Unit
  | 0, _, _, _ => Step.nofuel
  | fuel + 1, left, right, s =>
    if Env.hasRecursive s.env left then
      Step.bindS (interpretExpression fuel right s) fun v s1 =>
      match Env.set s1.env left (Binding.val v) with
      | Except.error m => Step.err m s1
      | Except.ok env2 => Step.ok () {s1 with env := env2}
    else Step.err (left ++ " has not been defined") s

/-- `interpretVariableBinding`: dispatch declaration or assignment. -/
def interpretVariableBinding : Nat → VarBinding → St → Step Unit
  | 0, _, _ => Step.nofuel
  | fuel + 1, VarBinding.decl d, s => interpretVariableDeclaration fuel d s
  | fuel + 1, VarBinding.assign left right, s =>
    interpretVariableAssignment fuel left right s

/-- `interpretIfDeclaration`: an initializer-free if-let declares and takes
the branch; otherwise the branch is taken when the descriptor size equals
the initializer length, or is below it for a growable descriptor (through
the C++ `std::optional` comparisons). -/
def interpretIfDeclaration : Nat → VarDecl → St → Step Bool
  | 0, _, _ => Step.nofuel
  | fuel + 1, d, s =>
    match VarDecl.value d with
    | none =>
      Step.bindS (interpretVariableDeclaration fuel d s) fun _ s1 =>
      Step.ok true s1
    | some expr =>
      Step.bindS (interpretExpression fuel expr s) fun v s1 =>
      let descriptor := VarDecl.descriptor d
      if optEqNat descriptor.size (Value.getSize v) ||
          (optLtNat descriptor.size (Value.getSize v) && descriptor.canGrow) then
        match Value.fromDescriptor descriptor (some v) with
        | Except.error m => Step.err m s1
        | Except.ok nv =>
          let env2 := Env.define s1.env (VarDecl.identifier d) (Binding.val nv)
          Step.ok true {s1 with env := env2}
      else Step.ok false s1

/-- `interpretIfCompare`: evaluate both sides, apply the comparison. -/
def interpretIfCompare : Nat → CmpOp → Expr → Expr → St → Step Bool
  | 0, _, _, _, _ => Step.nofuel
  | fuel + 1, type, left, right, s =>
    Step.bindS (interpretExpression fuel left s) fun lv s1 =>
    Step.bindS (interpretExpression fuel right s1) fun rv s2 =>
    Step.ok (Value.compareOp type lv rv) s2

/-- `interpretIfCondition`: dispatch the two condition shapes. -/
def interpretIfCondition : Nat → Cond → St → Step Bool
  | 0, _, _ => Step.nofuel
  | fuel + 1, Cond.compare type left right, s =>
    interpretIfCompare fuel type left right s
  | fuel + 1, Cond.decl d, s => interpretIfDeclaration fuel d s

/-- `interpretWhile`: push one child scope, loop condition and body in it,
drop it at the end. -/
def interpretWhile : Nat → Cond → List Stmt → St → Step (Option Value)
  | 0, _, _, _ => Step.nofuel
  | fuel + 1, condition, body, s =>
    Step.bindS (whileAux fuel condition body (pushScope s)) fun r s1 =>
    Step.ok r (popScope s1)

/-- The iteration of the `while` statement: re-evaluate the condition in
the shared scope, run the body, short-circuit on an early return. -/
def whileAux : Nat → Cond → List Stmt → St → Step (Option Value)
  | 0, _, _, _ => Step.nofuel
  | fuel + 1, condition, body, s =>
    Step.bindS (interpretIfCondition fuel condition s) fun b s1 =>
    if b then
      Step.bindS (interpretBody fuel body s1) fun r s2 =>
      match r with
      | some v => Step.ok (some v) s2
      | none => whileAux fuel condition body s2
    else Step.ok none s1

/-- `interpretForLoop`: evaluate the iterable once, then run the body once
per element in a per-iteration child scope holding the element.  The two
storage branches of the source iterate the elements identically. -/
def interpretForLoop : Nat → String → Expr → List Stmt → St →
    Step (Option Value)
  | 0, _, _, _, _ => Step.nofuel
  | fuel + 1, element, iterable, body, s =>
    Step.bindS (interpretExpression fuel iterable s) fun itv s1 =>
    forAux fuel element body (DynamicArray.fromValue itv) s1

/-- One `for` iteration per element: fresh child scope, bind the element as
a one-element array, run the body, drop the scope. -/
def forAux : Nat → String → List Stmt → List Int → St → Step (Option Value)
  | 0, _, _, _, _ => Step.nofuel
  | _ + 1, _, _, [], s => Step.ok none s
  | fuel + 1, element, body, e :: rest, s =>
    let s1 := pushScope s
    let env2 := Env.define s1.env element (Binding.val ⟨Storage.dyn [e], 1⟩)
    let s2 := {s1 with env := env2}
    Step.bindS (interpretBody fuel body s2) fun r s3 =>
    match r with
    | some v => Step.ok (some v) (popScope s3)
    | none => forAux fuel element body rest (popScope s3)

/-- `interpretIf`: one child scope for condition and direct bodies; the
else-if chain is evaluated as a nested if whose parent is that scope.  The
boolean of the pair reports whether any branch ran. -/
def interpretIf : Nat → IfN → St → Step (Option Value × Bool)
  | 0, _, _ => Step.nofuel
  | fuel + 1, IfN.mk condition body elseIfBranches elseBody, s =>
    let s0 := pushScope s
    Step.bindS (interpretIfCondition fuel condition s0) fun b s1 =>
    if b then
      Step.bindS (interpretBody fuel body s1) fun r s2 =>
      Step.ok (r, true) (popScope s2)
    else
      match elseIfBranches with
      | some elseIf =>
        Step.bindS (interpretIf fuel elseIf s1) fun pr s2 =>
        if pr.2 then Step.ok (pr.1, true) (popScope s2)
        else
          match elseBody with
          | some eb =>
            Step.bindS (interpretBody fuel eb s2) fun r s3 =>
            Step.ok (r, true) (popScope s3)
          | none => Step.ok (none, false) (popScope s2)
      | none =>
        match elseBody with
        | some eb =>
          Step.bindS (interpretBody fuel eb s1) fun r s2 =>
          Step.ok (r, true) (popScope s2)
        | none => Step.ok (none, false) (popScope s1)

/-- `interpretReturn`: the value of the returned expression. -/
def interpretReturn : Nat → Expr → St → Step Value
  | 0, _, _ => Step.nofuel
  | fuel + 1, e, s => interpretExpression fuel e s

/-- `interpretStatement`: `some` signals an early return to the enclosing
function. -/
def interpretStatement : Nat → Stmt → St → Step (Option Value)
  | 0, _, _ => Step.nofuel
  | fuel + 1, Stmt.binding b, s =>
    Step.bindS (interpretVariableBinding fuel b s) fun _ s1 => Step.ok none s1
  | fuel + 1, Stmt.forLoop element iterable body, s =>
    interpretForLoop fuel element iterable body s
  | fuel + 1, Stmt.whileLoop condition body, s =>
    interpretWhile fuel condition body s
  | fuel + 1, Stmt.ifStmt n, s =>
    Step.bindS (interpretIf fuel n s) fun pr s1 => Step.ok pr.1 s1
  | fuel + 1, Stmt.call c, s =>
    Step.bindS (interpretFunctionCall fuel c s) fun _ s1 => Step.ok none s1
  | fuel + 1, Stmt.ret e, s =>
    Step.bindS (interpretReturn fuel e s) fun v s1 => Step.ok (some v) s1

/-- `interpretBody`: run the statements in order, stopping at the first
early return. -/
def interpretBody : Nat → List Stmt → St → Step (Option Value)
  | 0, _, _ => Step.nofuel
  | _ + 1, [], s => Step.ok none s
  | fuel + 1, st :: rest, s =>
    Step.bindS (interpretStatement fuel st s) fun r s1 =>
    match r with
    | some v => Step.ok (some v) s1
    | none => interpretBody fuel rest s1

end

/-! ## Module loader and entrypoint -/

/-- `interpretFunctionDefinition`: bind the definition in the given scope. -/
def interpretFunctionDefinition (f : FuncDef) (s : St) : St :=
  {s with env := Env.define s.env f.identifier (Binding.func f)}

mutual

/-- `interpretUse`: resolve the target to a filename; skip silently when it
was already interpreted during this run, otherwise record it and load the
file. -/
def interpretUse : Nat → UseN → St → Step Unit
  | 0, _, _ => Step.nofuel
  | fuel + 1, u, s =>
    Step.bindS (interpretArray fuel u.value s) fun v s1 =>
    let filename := valueToString v
    if s1.files.contains filename then Step.ok () s1
    else interpretFile fuel filename {s1 with files := s1.files ++ [filename]}

/-- `interpretFile`: read the file (the `St.rawFs` lookup stands for
`readCode`; a missing file is its thrown error), tokenize it with the
embedded lexer (a lex error propagates exactly as the thrown C++ exception
does), parse it (`RootNode::parse` is abstracted as the lookup of the
pre-parsed module in `St.fs`), then process only its function definitions
and use directives; other top-level items are ignored. -/
def interpretFile : Nat → List Int → St → Step Unit
  | 0, _, _ => Step.nofuel
  | fuel + 1, filename, s =>
    match s.rawFs.find? fun q => q.1 == filename with
    | none => Step.err ("Failed to open file") s
    | some q =>
      match tokenize q.2 with
      | Except.error m => Step.err m s
      | Except.ok _tokens =>
        match s.fs.find? fun q2 => q2.1 == filename with
        | none => Step.err ("Unexpected end of file while parsing") s
        | some q2 => interpretTops fuel q2.2 s

/-- The loop of `interpretFile` over the top-level items. -/
def interpretTops : Nat → List TopLevel → St → Step Unit
  | 0, _, _ => Step.nofuel
  | _ + 1, [], s => Step.ok () s
  | fuel + 1, t :: rest, s =>
    match t with
    | TopLevel.funcDef f => interpretTops fuel rest (interpretFunctionDefinition f s)
    | TopLevel.useDirective u =>
      Step.bindS (interpretUse fuel u s) fun _ s1 => interpretTops fuel rest s1
    | TopLevel.binding _ => interpretTops fuel rest s
    | TopLevel.call _ => interpretTops fuel rest s

end

/-- `interpret`: build the root scope, load the root file, and when `main`
is defined call it with two arguments, the one-element array `[argc]` and
the flattened lengths-and-bytes vector; an error thrown by the call is
caught, reported, and turns into exit status 1. -/
def interpret (fuel : Nat) (filename : List Int) (argc : Int)
    (args : List (List Int)) (fs : List (List Int × List TopLevel))
    (rawFs : List (List Int × List Char)) (input : List Int) : Step Unit :=
  match fuel with
  | 0 => Step.nofuel
  | fuel + 1 =>
    let s : St :=
      {env := [[]], output := [], files := [], fs := fs, rawFs := rawFs,
       input := input}
    Step.bindS (interpretFile fuel filename s) fun _ s1 =>
    if Env.hasTop s1.env ("main") then
      let commandLineArgs :=
        args.flatMap fun arg => Int.ofNat arg.length :: arg
      let mainArgs : List Expr :=
        [Expr.mk (Primary.array (ArrayN.lit [argc])) [],
         Expr.mk (Primary.array (ArrayN.lit commandLineArgs)) []]
      match interpretFunctionCall fuel (FuncCall.mk ("main") mainArgs) s1 with
      | Step.ok _ s2 => Step.ok () s2
      | Step.err _ s2 => Step.exited 1 s2
      | Step.exited code s2 => Step.exited code s2
      | Step.nofuel => Step.nofuel
    else Step.ok () s1

/-- The process outcome of `main.cpp`: run the interpreter on the file with
the argv tail; a clean return of `interpret` exits 0, the caught-error path
and the `exit` builtin produce their status.  `none` stands for no outcome
within the given fuel (or for the abnormal termination of an uncaught load
error, which the entrypoint does not catch). -/
def runProgram (fuel : Nat) (filename : List Int) (args : List (List Int))
    (fs : List (List Int × List TopLevel))
    (rawFs : List (List Int × List Char)) (input : List Int) :
    Option (Int × List Int) :=
  match interpret fuel filename (Int.ofNat args.length) args fs rawFs input with
  | Step.ok _ s => some (0, s.output)
  | Step.err _ _ => none
  | Step.exited code s => some (code, s.output)
  | Step.nofuel => none

/-! ## Concrete fixtures used by the claim theorems -/

/-- The output bytes of a successful run, `none` on any other outcome. -/
def outputOf {α : Type} : Step α → Option (List Int)
  | Step.ok _ s => some s.output
  | _ => none

/-- An interpreter state with one empty scope and an empty world. -/
def stEmpty : St :=
  {env := [[]], output := [], files := [], fs := [], rawFs := [], input := []}

/-- The body of spec scenario 6 with declared minimum 5:
`let g: [5+] = [1,2]; g = [1,2,3,4];`. -/
def c1Body : List Stmt :=
  [Stmt.binding (VarBinding.decl (VarDecl.mk ("g") ⟨some 5, true⟩
      (some (Expr.mk (Primary.array (ArrayN.lit [1, 2])) [])))),
   Stmt.binding (VarBinding.assign ("g")
      (Expr.mk (Primary.array (ArrayN.lit [1, 2, 3, 4])) []))]

/-- The function `fn f() -> [+] that returns the free identifier x`, used to
exhibit dynamic scoping: `x` is not a parameter of `f` and is not defined in
the scope where `f` is bound. -/
def demoF : FuncDef :=
  ⟨"f", [], ⟨none, true⟩,
   [Stmt.ret (Expr.mk (Primary.array (ArrayN.ident ("x"))) [])]⟩

/-- A call-site state: the root frame binds `f`, and the current (caller)
frame binds `x` to the one-element array `[v]`.  Under lexical scoping the
body of `f` could not see this `x`; under the dynamic scoping of the
interpreter it does. -/
def demoSt (v : Int) : St :=
  {env := [[("x", Binding.val ⟨Storage.vec [v], 1⟩)],
           [("f", Binding.func demoF)]],
   output := [], files := [], fs := [], rawFs := [], input := []}

/-- The exact source text of spec scenario 1 (braces written through their
character codes). -/
def c6Source : List Char :=
  "fn main(_: [+]) -> [+] \x7b print(\"Hi\"); \x7d".toList

/-- The filename of the scenario-1 module. -/
def c6File : List Int := stringToInts ("prog.ints")

/-- The file system holding the scenario-1 source text. -/
def c6SrcFs : List (List Int × List Char) := [(c6File, c6Source)]

/-- The state `interpret` builds before loading the scenario-1 root file. -/
def c6St0 : St :=
  {env := [[]], output := [], files := [], fs := [], rawFs := c6SrcFs,
   input := []}

/-- A state whose loaded-files list already holds the filename `hi`
(bytes 104, 105), for the repeated-use claim. -/
def c7St : St :=
  {env := [[]], output := [], files := [[104, 105]], fs := [], rawFs := [],
   input := []}

/-- A `while` body observing whether a `let` inside it re-initializes:
`let c: [1] = [1]; while c < [3] with body
let y: [+] = c; print(y + [48]); c = c + [1];`.
Two iterations run; if `y` were re-created each iteration the output would
be the digit bytes 49 50, but with the single shared scope and the no-op
`define` the first-iteration `y` is printed twice: 49 49. -/
def c10Body : List Stmt :=
  [Stmt.binding (VarBinding.decl (VarDecl.mk ("c") ⟨some 1, false⟩
      (some (Expr.mk (Primary.array (ArrayN.lit [1])) [])))),
   Stmt.whileLoop
     (Cond.compare CmpOp.lt (Expr.mk (Primary.array (ArrayN.ident ("c"))) [])
       (Expr.mk (Primary.array (ArrayN.lit [3])) []))
     [Stmt.binding (VarBinding.decl (VarDecl.mk ("y") ⟨none, true⟩
        (some (Expr.mk (Primary.array (ArrayN.ident ("c"))) [])))),
      Stmt.call (FuncCall.mk ("print")
        [Expr.mk (Primary.arith (Arith.mk
          (Expr.mk (Primary.array (ArrayN.ident ("y"))) [])
          (Expr.mk (Primary.array (ArrayN.lit [48])) [])
          ArithOp.addition)) []]),
      Stmt.binding (VarBinding.assign ("c")
        (Expr.mk (Primary.arith (Arith.mk
          (Expr.mk (Primary.array (ArrayN.ident ("c"))) [])
          (Expr.mk (Primary.array (ArrayN.lit [1])) [])
          ArithOp.addition)) []))]]

/-! ## Helper lemmas -/

/-- A frame lookup that succeeds implies `Frame.has`. -/
theorem has_of_getB (f : Frame) (name : String) (b : Binding)
    (h : Frame.getB f name = some b) : Frame.has f name = true := by
  induction f with
  | nil => simp [Frame.getB] at h
  | cons q rest ih =>
    simp only [Frame.has, List.any_cons]
    cases hq : q.1 == name with
    | true => simp
    | false =>
      simp only [hq, Bool.false_or]
      have h2 : Frame.getB rest name = some b := by
        simpa [Frame.getB, List.find?_cons, hq] using h
      exact ih h2

/-- A chain lookup that succeeds implies `Scope::hasRecursive`. -/
theorem hasRecursive_of_get (env : Env) (name : String) (b : Binding)
    (h : Env.get env name = Except.ok b) : Env.hasRecursive env name = true := by
  induction env with
  | nil => simp [Env.get] at h
  | cons f rest ih =>
    unfold Env.get at h
    unfold Env.hasRecursive
    rw [List.any_cons]
    match hf : Frame.getB f name with
    | some b2 => rw [has_of_getB f name b2 hf]; rfl
    | none =>
      rw [hf] at h
      have := ih h
      unfold Env.hasRecursive at this
      rw [this, Bool.or_true]

/-- Reading every index of a list back in order reproduces the list. -/
theorem range_map_getD (l : List Int) :
    (List.range l.length).map (fun i => l.getD i 0) = l := by
  apply List.ext_getElem
  · simp
  · intro i h1 h2
    simp [List.getD_eq_getElem?_getD, List.getElem?_eq_getElem h2]

/-- 32-bit wrap-around is the identity below the signed bound. -/
theorem wrap32_eq_of_lt (x : Int) (h0 : 0 ≤ x) (h : x < int31) : wrap32 x = x := by
  unfold wrap32 int31 at *
  rw [Int.emod_eq_of_lt (by omega) (by omega)]
  omega

/-- 32-bit wrap-around is the identity on small naturals. -/
theorem wrap32_ofNat (n : Nat) (h : n < int31) :
    wrap32 (Int.ofNat n) = Int.ofNat n := by
  apply wrap32_eq_of_lt
  · exact Int.ofNat_nonneg n
  · exact Int.ofNat_lt.mpr h

/-- The element-by-element reading of the all-pairs-differ loop. -/
theorem zip_all_bne_iff (a b : List Int) (h : a.length = b.length) :
    (((a.zip b).all fun p => p.1 != p.2) = true ↔
      ∀ i < a.length, a.getD i 0 ≠ b.getD i 0) := by
  induction a generalizing b with
  | nil =>
    cases b with
    | nil => simp
    | cons y ys => simp at h
  | cons x xs ih =>
    cases b with
    | nil => simp at h
    | cons y ys =>
      have hlen : xs.length = ys.length := by simpa using h
      simp only [List.zip_cons_cons, List.all_cons, Bool.and_eq_true, bne_iff_ne]
      constructor
      · rintro ⟨hxy, hrest⟩ i hi
        match i with
        | 0 => simpa using hxy
        | i + 1 =>
          have := (ih ys hlen).1 hrest i (by simp at hi; omega)
          simpa using this
      · intro hall
        refine ⟨by simpa using hall 0 (by simp), (ih ys hlen).2 ?_⟩
        intro i hi
        have := hall (i + 1) (by simp; omega)
        simpa using this

/-! ## Claim theorems -/

/-- C1: the claim says an assignment `x = e` to a growable variable errors
exactly when the declared minimum exceeds the length of `e`, and otherwise
keeps the minimum unchanged.  The code does neither: the declaration stores
minimum 0 (the `reserve` slip of `fromDescriptor`) and
`interpretVariableAssignment` hands the freshly evaluated RHS to
`Scope::set`, which replaces the binding wholesale without consulting
`Value::operator=`.  Running scenario 6 of the spec with declared minimum 5
(`let g: [5+] = [1,2]; g = [1,2,3,4];`) therefore succeeds, and `g` ends
bound to `[1,2,3,4]` with minimum 4 instead of raising the required runtime
error. -/
theorem claim_C1_assignment_replaces_binding :
    interpretBody 20 c1Body stEmpty =
      Step.ok none
        {stEmpty with env := [[("g", Binding.val ⟨Storage.vec [1, 2, 3, 4], 4⟩)]]} := by
  rfl

/-- C2: the claim says `fromDescriptor` on `[n+]` yields minimum `n`,
requires `len(V) >= n` with an initializer, and zero-fills to length `n`
without one.  The code calls `reserve(n)` and then records
`dynamicArray.size()`, which is still 0: `[2+]` without an initializer
yields the empty growable with minimum 0, and `[5+]` with the length-2
initializer `[1,2]` is accepted (no length check can fire against the
stored minimum 0) with result minimum 0. -/
theorem claim_C2_fromDescriptor_growable_minimum :
    Value.fromDescriptor ⟨some 2, true⟩ none = Except.ok ⟨Storage.vec [], 0⟩
  ∧ Value.fromDescriptor ⟨some 5, true⟩ (some ⟨Storage.vec [1, 2], 2⟩) =
      Except.ok ⟨Storage.vec [1, 2], 0⟩ := by
  exact ⟨rfl, rfl⟩

/-- C3: for every call to a user-defined function, the fresh scope is a
child of the caller scope (dynamic scoping).  First conjunct: whenever the
scope chain resolves the callee name to a parameterless function, the call
runs the body in `pushScope s`, a fresh frame whose chain continues with
the entire call-site chain.  Second conjunct: a free identifier `x` of the
callee body that is bound only in the caller frame (and invisible from the
frame where the callee was defined) resolves to the caller value `[v]`. -/
theorem claim_C3_function_call_dynamic_scoping (fuel : Nat) (name : String)
    (f : FuncDef) (s : St)
    (hget : Env.get s.env name = Except.ok (Binding.func f))
    (hparams : f.params = []) :
    (interpretFunctionCall (fuel + 2) (FuncCall.mk name []) s =
      Step.bindS (interpretBody (fuel + 1) f.body (pushScope s))
        (fun returnValue s2 =>
          match returnValue with
          | some v => Step.ok v (popScope s2)
          | none => Step.ok emptyValue (popScope s2)))
  ∧ (∀ v : Int, interpretFunctionCall 12 (FuncCall.mk ("f") []) (demoSt v) =
      Step.ok ⟨Storage.vec [v], 1⟩ (demoSt v)) := by
  constructor
  · have hrec : Env.hasRecursive s.env name = true :=
      hasRecursive_of_get s.env name (Binding.func f) hget
    simp [interpretFunctionCall, hrec, hget, hparams, interpretParameters,
      defineParams, Step.bindS, pushScope, FuncCall.identifier,
      FuncCall.parameters]
  · intro v
    rfl

/-- Closed instance of the C3 theorem at the demonstration fixture. -/
theorem claim_C3_function_call_dynamic_scoping_witness :
    interpretFunctionCall 12 (FuncCall.mk ("f") []) (demoSt 0) =
      Step.bindS (interpretBody 11 demoF.body (pushScope (demoSt 0)))
        (fun returnValue s2 =>
          match returnValue with
          | some v => Step.ok v (popScope s2)
          | none => Step.ok emptyValue (popScope s2)) :=
  (claim_C3_function_call_dynamic_scoping 10 ("f") demoF (demoSt 0) rfl rfl).1

/-- C4: the range suffix with literal bounds (absent start defaulting to 0,
absent end to the current length) errors exactly when `end < start` or
`end > length`, and otherwise produces the window of length `end - start`
whose element `i` is element `start + i` of the source; reading the full
window `[0:L]` reproduces the array; and an expression bound must evaluate
to a one-element non-negative array. -/
theorem claim_C4_array_range_semantics (fuel : Nat) (v : Value)
    (start stop : Option Nat) (s : St) :
    (interpretArrayRange (fuel + 2) (start.map RangeBound.nat)
        (stop.map RangeBound.nat) v s =
      (if stop.getD (Value.getSize v) < start.getD 0 then
        Step.err ("Array Range upper bound must be greater than or equal to the lower bound") s
       else if stop.getD (Value.getSize v) > Value.getSize v then
        Step.err ("Array range bounds must be smaller than the length of the array") s
       else
        Step.ok ⟨Storage.dyn
          ((List.range (stop.getD (Value.getSize v) - start.getD 0)).map
            fun i => (DynamicArray.fromValue v).getD (i + start.getD 0) 0),
          stop.getD (Value.getSize v) - start.getD 0⟩ s))
  ∧ (List.range (Value.getSize v)).map
      (fun i => (DynamicArray.fromValue v).getD (i + 0) 0) =
      DynamicArray.fromValue v
  ∧ (∀ (e : Expr) (v2 : Value) (s2 : St),
      interpretExpression fuel e s = Step.ok v2 s2 →
      interpretArrayRangeBound (fuel + 1) (RangeBound.expr e) s =
        (if (DynamicArray.fromValue v2).length ≠ 1 ∨
            (DynamicArray.fromValue v2).getD 0 0 < 0 then
          Step.err ("Array Bounds value must be an integer or evaluate to an array with 1 positive value") s2
         else Step.ok ((DynamicArray.fromValue v2).getD 0 0).toNat s2)) := by
  refine ⟨?_, ?_, ?_⟩
  · cases start <;> cases stop <;>
      simp [interpretArrayRange, interpretArrayRangeBound, Step.bindS]
  · simpa using range_map_getD (DynamicArray.fromValue v)
  · intro e v2 s2 he
    simp [interpretArrayRangeBound, he, Step.bindS]

/-- Closed instance of the C4 theorem: slicing `[5,6,7,8]` with bounds 1
and 3 yields `[6,7]`. -/
theorem claim_C4_array_range_semantics_witness :
    interpretArrayRange 7 (some (RangeBound.nat 1)) (some (RangeBound.nat 3))
      ⟨Storage.vec [5, 6, 7, 8], 4⟩ stEmpty =
      Step.ok ⟨Storage.dyn [6, 7], 2⟩ stEmpty := by
  have h := (claim_C4_array_range_semantics 5 ⟨Storage.vec [5, 6, 7, 8], 4⟩
    (some 1) (some 3) stEmpty).1
  exact h

/-- C5: the `!=` comparison on two array values returns false when the
lengths differ, and on equal lengths it returns true exactly when every
corresponding pair of elements differs. -/
theorem claim_C5_array_bne_all_pairs (v w : Value) :
    (Value.getSize v ≠ Value.getSize w → Value.bne v w = false)
  ∧ (Value.getSize v = Value.getSize w →
      (Value.bne v w = true ↔
        ∀ i < Value.getSize v,
          (DynamicArray.fromValue v).getD i 0 ≠
            (DynamicArray.fromValue w).getD i 0)) := by
  constructor
  · intro hne
    simp [Value.bne, Value.sameSize, Value.getSize] at hne ⊢
    intro hc
    exact absurd hc hne
  · intro heq
    have hs : Value.sameSize v w = true := by
      simpa [Value.sameSize, Value.getSize] using heq
    simp only [Value.bne, hs, Bool.not_true, Bool.false_eq_true, if_false,
      DynamicArray.bne]
    rw [if_neg (by simpa [Value.getSize] using heq)]
    exact zip_all_bne_iff _ _ (by simpa [Value.getSize] using heq)

/-- Closed instance of the C5 theorem: `[1] != [1,2]` is false because the
lengths differ. -/
theorem claim_C5_array_bne_all_pairs_witness :
    Value.bne ⟨Storage.vec [1], 1⟩ ⟨Storage.vec [1, 2], 2⟩ = false :=
  (claim_C5_array_bne_all_pairs ⟨Storage.vec [1], 1⟩
    ⟨Storage.vec [1, 2], 2⟩).1 (by decide)

/-- C6 counterexample: the claim says running the scenario-1 program with
no tail arguments writes `Hi` to stdout and exits 0; the run produces
neither that output nor a clean exit. -/
theorem claim_C6_hello_counterexample :
    runProgram 30 c6File [] [] c6SrcFs [] ≠ some (0, stringToInts ("Hi")) := by
  decide

/-- C6 amended: the run never reaches `main`.  The lexer rejects the
parameter character of the scenario-1 source (an underscore is not a
letter, digit, quote, newline, symbol or whitespace, so `tokenize` throws
its unexpected-character error) while the module loader is loading the
root file; this happens outside the entrypoint's try/catch, which wraps
only the call to `main`, so the error escapes `interpret` uncaught, the
process terminates abnormally, and nothing is written to stdout.  First
conjunct: the embedded lexer rejects the exact source text.  Second
conjunct: `interpret` propagates that error from the load phase with the
state still untouched (empty output).  Third conjunct: the process has no
normal exit status. -/
theorem claim_C6_lexer_rejects_program :
    tokenize c6Source = Except.error ("Unexpected character")
  ∧ interpret 30 c6File 0 [] [] c6SrcFs [] =
      Step.err ("Unexpected character") c6St0
  ∧ runProgram 30 c6File [] [] c6SrcFs [] = none := by
  exact ⟨rfl, rfl, rfl⟩

/-- C7: a `use` directive whose resolved filename was already interpreted
during this run leaves the interpreter state unchanged (the module loader
processes each filename at most once). -/
theorem claim_C7_use_skips_loaded_file (fuel : Nat) (xs : List Int)
    (ty : UseType) (s : St)
    (h : valueToString ⟨Storage.vec xs, xs.length⟩ ∈ s.files) :
    interpretUse (fuel + 2) ⟨ArrayN.lit xs, ty⟩ s = Step.ok () s := by
  simp [interpretUse, interpretArray, Step.bindS, h]

/-- Closed instance of the C7 theorem: re-using the already loaded file
`hi` (bytes 104 105) changes nothing. -/
theorem claim_C7_use_skips_loaded_file_witness :
    interpretUse 9 ⟨ArrayN.lit [104, 105], UseType.path⟩ c7St =
      Step.ok () c7St :=
  claim_C7_use_skips_loaded_file 7 [104, 105] UseType.path c7St (by decide)

/-- C8: for every non-negative `N` (within the 32-bit int range of the
argument), the builtin `range` applied to `[N]` yields the array
`[0, 1, ..., N-1]` of length `N`, and `size()` of that result is `[N]`. -/
theorem claim_C8_range_size_identity (N : Nat) (h : N < int31) (fuel : Nat)
    (s : St) :
    (interpretRange (fuel + 3)
        (FuncCall.mk ("range")
          [Expr.mk (Primary.array (ArrayN.lit [Int.ofNat N])) []]) s =
      Step.ok ⟨Storage.dyn ((List.range N).map Int.ofNat), N⟩ s)
  ∧ ((List.range N).map Int.ofNat).length = N
  ∧ applySize ⟨Storage.dyn ((List.range N).map Int.ofNat), N⟩ [] =
      Except.ok ⟨Storage.dyn [Int.ofNat N], 1⟩ := by
  refine ⟨?_, by simp, ?_⟩
  · simp only [interpretRange, interpretExpression, interpretArray,
      applySuffixOps, Step.bindS, FuncCall.parameters]
    simp only [DynamicArray.fromValue, Storage.list, List.length_cons,
      List.length_nil, List.getD_cons_zero]
    rw [if_neg (by simp)]
    rw [if_neg (show ¬ Int.ofNat N < 0 from not_lt.mpr (Int.ofNat_nonneg N))]
    show Step.ok (Value.mk (Storage.dyn
      ((List.range N).map fun i => wrap32 (Int.ofNat i))) N) s =
      Step.ok (Value.mk (Storage.dyn ((List.range N).map Int.ofNat)) N) s
    have hmap : ((List.range N).map fun i => wrap32 (Int.ofNat i)) =
        (List.range N).map Int.ofNat := by
      apply List.map_congr_left
      intro i hi
      have hiN : i < N := List.mem_range.mp hi
      exact wrap32_ofNat i (by omega)
    rw [hmap]
  · simp only [applySize, Value.getSize, DynamicArray.fromValue, Storage.list,
      List.length_map, List.length_range]
    rw [wrap32_ofNat N h]

/-- Closed instance of the C8 theorem at `N = 3`: `range([3])` is
`[0,1,2]`. -/
theorem claim_C8_range_size_identity_witness :
    interpretRange 3
        (FuncCall.mk ("range")
          [Expr.mk (Primary.array (ArrayN.lit [3])) []]) stEmpty =
      Step.ok ⟨Storage.dyn [0, 1, 2], 3⟩ stEmpty := by
  have h := (claim_C8_range_size_identity 3 (by decide) 0 stEmpty).1
  exact h

/-- C9 counterexample: the claim says a `-` immediately followed by a digit
begins an IntLit only when the previous byte is not a digit or identifier
character, so that `x-1` lexes as Identifier `x`, Symbol `-`, IntLit `1`.
The lexer has no previous-byte check, so this token sequence is not
produced. -/
theorem claim_C9_previous_byte_counterexample :
    tokenize ("x-1".toList) ≠
      Except.ok [⟨TokenType.identifier, "x"⟩, ⟨TokenType.symbol, "-"⟩,
        ⟨TokenType.intLit, "1"⟩] := by
  decide

/-- C9 amended: a `-` immediately followed by a digit always begins an
IntLit token, regardless of the previous byte; lexing `x-1` yields
Identifier `x`, IntLit `-1`, and lexing `12-3` yields IntLit `12`,
IntLit `-3` (only a `-` not followed by a digit becomes a Symbol, as in
`x - 1`). -/
theorem claim_C9_minus_always_intlit :
    tokenize ("x-1".toList) =
      Except.ok [⟨TokenType.identifier, "x"⟩, ⟨TokenType.intLit, "-1"⟩]
  ∧ tokenize ("12-3".toList) =
      Except.ok [⟨TokenType.intLit, "12"⟩, ⟨TokenType.intLit, "-3"⟩]
  ∧ tokenize ("x - 1".toList) =
      Except.ok [⟨TokenType.identifier, "x"⟩, ⟨TokenType.symbol, "-"⟩,
        ⟨TokenType.intLit, "1"⟩] := by
  exact ⟨rfl, rfl, rfl⟩

set_option maxHeartbeats 1000000 in
/-- C10: a `while` loop creates one scope shared by all iterations and
`Scope::define` is a no-op on an existing name, so a `let` inside the body
initializes only on the first iteration.  First conjunct: defining an
already-present name leaves the scope chain unchanged.  Second conjunct:
the loop of `c10Body` runs two iterations and prints the digit bytes
`49 49` (the first-iteration value of `y` twice) rather than `49 50`. -/
theorem claim_C10_while_single_scope_define_noop :
    (∀ (f : Frame) (rest : List Frame) (name : String) (b : Binding),
      Frame.has f name = true → Env.define (f :: rest) name b = f :: rest)
  ∧ outputOf (interpretBody 20 c10Body stEmpty) = some [49, 49] := by
  constructor
  · intro f rest name b h
    simp [Env.define, Frame.emplace, h]
  · decide

/-- Closed instance of the C10 theorem: re-defining `x` in a frame that
already binds it changes nothing. -/
theorem claim_C10_while_single_scope_define_noop_witness :
    Env.define [[("x", Binding.val emptyValue)], []] ("x")
      (Binding.val ⟨Storage.vec [7], 1⟩) =
      [[("x", Binding.val emptyValue)], []] :=
  claim_C10_while_single_scope_define_noop.1 [("x", Binding.val emptyValue)]
    [[]] ("x") (Binding.val ⟨Storage.vec [7], 1⟩) rfl

end Ints
